import Mathlib

/-!
Shallow embedding of the request-aggregation pipeline of `src/server.js`
(the POST `/api/status` endpoint of the Roblox status proxy).

Upstream HTTP services are modelled as oracle functions:
* `userOracle : List String → Option (List RUser)` — the bulk
  username-to-id lookup (`axios.post .../usernames/users`); `none` models a
  thrown error (network failure / non-2xx), `some rs` the `resp.data.data`
  array.
* `presenceOracle : List Nat → Option (List Presence)` — the bulk presence
  lookup; `none` models a thrown error, `some ps` the
  `resp.data.userPresences` array.
* `placeOracle : Nat → Option (Option String)` — the place-details lookup;
  outer `none` models a thrown error, inner option is `resp.data[0]?.name`
  (`none` when the response array is empty or the entry has no name).

Every upstream request actually issued is recorded in an `UpstreamCall`
trace so that "no network call occurs" claims are statable.

JavaScript value conventions used throughout: `Option Nat` stands for a
possibly-`undefined`/`null` number, where `some 0` is still falsy (JS
`!id`); `Option String` for a possibly missing string, where `some ""` is
falsy.  JS objects used as dictionaries are association lists with
first-position-wins update (`jsSet`) and first-match lookup (`jsLookup`),
mirroring insertion-order key semantics.
-/

/-- A network request issued to one of the three upstream Roblox APIs. -/
inductive UpstreamCall : Type where
  | userLookup (chunk : List String)
  | presenceLookup (ids : List Nat)
  | placeLookup (id : Nat)
deriving DecidableEq, Repr

/-- One entry of the bulk username-lookup response: `{name, id}`. -/
structure RUser where
  name : String
  id : Nat
deriving DecidableEq, Repr

/-- One entry of `resp.data.userPresences` from the presence API. -/
structure Presence where
  userId : Nat
  userPresenceType : Nat
  placeId : Option Nat
  universeId : Option Nat
  lastLocation : String
deriving DecidableEq, Repr

/-- One element of the JSON array returned by the endpoint.  A field that
the corresponding JS object does not populate is `none`. -/
structure StatusResult where
  username : String
  error : Option String
  userId : Option Nat
  status : Option String
  placeId : Option Nat
  universeId : Option Nat
  mapName : Option String
  lastLocation : Option String
deriving DecidableEq, Repr

/-- The object pushed by `results.push({ username, error: ... })`. -/
def mkErrResult (u msg : String) : StatusResult :=
  ⟨u, some msg, none, none, none, none, none, none⟩

/-- The object pushed by the final `results.push({...})` of the loop. -/
def mkOkResult (u : String) (uid : Nat) (st : String)
    (pid unid : Option Nat) (mn ll : String) : StatusResult :=
  ⟨u, none, some uid, some st, pid, unid, some mn, some ll⟩

/-- JS truthiness of an optional number: `undefined`, `null` and `0` are
falsy. -/
def truthyN : Option Nat → Bool
  | none => false
  | some n => n != 0

/-- JS `a || b` on optional numbers (used for `universeId || placeId`). -/
def jsOrN (a b : Option Nat) : Option Nat :=
  if truthyN a then a else b

/-- JS `a || b` where `a` is a possibly missing string and `b` a string
default (empty string is falsy). -/
def jsOrStr (a : Option String) (b : String) : String :=
  match a with
  | none => b
  | some s => if s = "" then b else s

/-- Embedding of JS `String.prototype.toLowerCase()` (character-wise
case folding), written over the character list so it is kernel-computable. -/
def jsToLower (s : String) : String :=
  String.mk (s.data.map Char.toLower)

/-- Embedding of JS `String.prototype.trim()` (strip leading and trailing
whitespace), written over the character list so it is kernel-computable. -/
def jsTrim (s : String) : String :=
  String.mk (((s.data.dropWhile Char.isWhitespace).reverse.dropWhile
    Char.isWhitespace).reverse)

/-- Lookup in a JS-object-as-dictionary (first matching key). -/
def jsLookup {α β : Type} [DecidableEq α] : List (α × β) → α → Option β
  | [], _ => none
  | p :: rest, k => if p.1 = k then some p.2 else jsLookup rest k

/-- Assignment `obj[k] = v` on a JS-object-as-dictionary: updates the
existing entry in place, else appends (insertion order preserved). -/
def jsSet {α β : Type} [DecidableEq α] : List (α × β) → α → β → List (α × β)
  | [], k, v => [(k, v)]
  | p :: rest, k, v => if p.1 = k then (k, v) :: rest else p :: jsSet rest k v

/-- First-occurrence deduplication with an accumulator of already seen
elements; mirrors building a JS `Set` by iterated insertion. -/
def dedupFirstAux (seen : List String) : List String → List String
  | [] => []
  | a :: l =>
    if a ∈ seen then dedupFirstAux seen l
    else a :: dedupFirstAux (a :: seen) l

/-- `[...new Set(l)]`: keeps the first occurrence of each element, in
input order. -/
def dedupFirst (l : List String) : List String :=
  dedupFirstAux [] l

/-- `users.map(u => u.trim()).filter(u => u)` — trim every username and
drop empty strings. -/
def cleanUsers (us : List String) : List String :=
  (us.map jsTrim).filter (fun u => u != "")

/-- The chunking loop of `getUserIds`:
`for (let i = 0; i < usernames.length; i += 100) chunks.push(usernames.slice(i, i + 100))`. -/
def chunks100 (l : List String) : List (List String) :=
  (List.range ((l.length + 99) / 100)).map (fun j => (l.drop (100 * j)).take 100)

/-- `getUserIds`: batches the usernames into chunks of 100, issues one
bulk lookup per chunk, and accumulates the assignment
`userMap[lowercased user.name] = user.id` for each returned user; a
failed chunk is skipped.  Returns the map together with the trace of
issued calls. -/
def getUserIds (usernames : List String)
    (userOracle : List String → Option (List RUser)) :
    List (String × Nat) × List UpstreamCall :=
  if usernames.length = 0 then ([], [])
  else
    ((chunks100 usernames).foldl
      (fun m c =>
        match userOracle c with
        | some rs => rs.foldl (fun m r => jsSet m (jsToLower r.name) r.id) m
        | none => m) [],
      (chunks100 usernames).map UpstreamCall.userLookup)

/-- The `(lowercased name, id)` pairs inserted into the user map, chunk by
chunk, in insertion order; a failed chunk contributes nothing. -/
def respPairs (cs : List (List String))
    (userOracle : List String → Option (List RUser)) : List (String × Nat) :=
  (cs.map (fun c => ((userOracle c).getD []).map (fun r => ((jsToLower r.name), r.id)))).flatten

/-- `getGameInfo`: returns "Unknown Place" without a call when the
identifier is falsy; otherwise issues one place-details request and
returns `resp.data[0]?.name || "Unknown Place"`, with a thrown error also
yielding the sentinel. -/
def getGameInfo (id : Option Nat) (placeOracle : Nat → Option (Option String)) :
    String × List UpstreamCall :=
  match id with
  | none => ("Unknown Place", [])
  | some n =>
    if n = 0 then ("Unknown Place", [])
    else
      match placeOracle n with
      | none => ("Unknown Place", [UpstreamCall.placeLookup n])
      | some nameOpt => (jsOrStr nameOpt "Unknown Place", [UpstreamCall.placeLookup n])

/-- The presence fetch of the handler: one bulk call when there is at
least one resolved id, with a thrown error degrading to the initial
`{ userPresences: [] }`. -/
def fetchPresences (validUserIds : List Nat)
    (presenceOracle : List Nat → Option (List Presence)) :
    List Presence × List UpstreamCall :=
  if validUserIds.length > 0 then
    match presenceOracle validUserIds with
    | some d => (d, [UpstreamCall.presenceLookup validUserIds])
    | none => ([], [UpstreamCall.presenceLookup validUserIds])
  else ([], [])

/-- `presenceData.userPresences.forEach(p => { presenceMap[p.userId] = p })`. -/
def buildPresenceMap (ps : List Presence) : List (Nat × Presence) :=
  ps.foldl (fun m p => jsSet m p.userId p) []

/-- `Object.entries(userMap).reduce((acc,[username,id]) => {acc[id]=username; ...})`. -/
def buildReverseMap (um : List (String × Nat)) : List (Nat × String) :=
  um.foldl (fun m kv => jsSet m kv.2 kv.1) []

/-- One iteration of the aggregation loop (`for (const username of
uniqueUsers)`): classifies the user's status, resolving the game name for
type-3 presences, and produces the pushed record plus the trace of
place-lookup calls it made. -/
def processUser (um : List (String × Nat)) (idn : List (Nat × String))
    (pm : List (Nat × Presence)) (placeOracle : Nat → Option (Option String))
    (username : String) : StatusResult × List UpstreamCall :=
  match jsLookup um (jsToLower username) with
  | none => (mkErrResult username "Pengguna tidak ditemukan di Roblox.", [])
  | some uid =>
    if uid = 0 then (mkErrResult username "Pengguna tidak ditemukan di Roblox.", [])
    else
      match jsLookup pm uid with
      | none =>
        (mkOkResult (jsOrStr (jsLookup idn uid) username) uid "Offline"
          none none "Offline" "Offline", [])
      | some p =>
        if p.userPresenceType = 3 then
          (mkOkResult (jsOrStr (jsLookup idn uid) username) uid "In Game"
            p.placeId p.universeId
            (if truthyN p.placeId then (getGameInfo (jsOrN p.universeId p.placeId) placeOracle).1
             else "In Game (placeId hidden)")
            p.lastLocation,
            (getGameInfo (jsOrN p.universeId p.placeId) placeOracle).2)
        else if p.userPresenceType = 2 then
          (mkOkResult (jsOrStr (jsLookup idn uid) username) uid "In Game"
            p.placeId p.universeId "In Studio" p.lastLocation, [])
        else if p.userPresenceType = 1 then
          (mkOkResult (jsOrStr (jsLookup idn uid) username) uid "Online"
            p.placeId p.universeId "Online di Website" p.lastLocation, [])
        else
          (mkOkResult (jsOrStr (jsLookup idn uid) username) uid "Offline"
            p.placeId p.universeId "Offline" p.lastLocation, [])

/-- The body of the handler after input validation: resolve ids, fetch
presences, build lookup maps, and process every unique username in order.
Returns the per-username `(record, place-lookup trace)` pairs together
with the trace of the resolution and presence calls. -/
def runPipeline (us : List String)
    (userOracle : List String → Option (List RUser))
    (presenceOracle : List Nat → Option (List Presence))
    (placeOracle : Nat → Option (Option String)) :
    List (StatusResult × List UpstreamCall) × List UpstreamCall :=
  let dd := dedupFirst (cleanUsers us)
  let r1 := getUserIds dd userOracle
  let r2 := fetchPresences (r1.1.map (fun kv => kv.2)) presenceOracle
  let pm := buildPresenceMap r2.1
  let idn := buildReverseMap r1.1
  (dd.map (processUser r1.1 idn pm placeOracle), r1.2 ++ r2.2)

/-- The POST `/api/status` handler.  `users` is `req.body.users`
(`none` when absent).  Returns the HTTP outcome — `Except.error` for the
400 rejection, `Except.ok` for the 200 JSON array — together with the
full trace of upstream calls made. -/
def statusHandler (users : Option (List String))
    (userOracle : List String → Option (List RUser))
    (presenceOracle : List Nat → Option (List Presence))
    (placeOracle : Nat → Option (Option String)) :
    Except String (List StatusResult) × List UpstreamCall :=
  match users with
  | none => (Except.error "Daftar pengguna kosong.", [])
  | some us =>
    if us.length = 0 then (Except.error "Daftar pengguna kosong.", [])
    else
      let p := runPipeline us userOracle presenceOracle placeOracle
      (Except.ok (p.1.map (fun q => q.1)), p.2 ++ (p.1.map (fun q => q.2)).flatten)

/-- Concrete 250-username input used to exercise the 100/100/50 batching
of the username resolver. -/
def batchNames : List String :=
  (List.range 250).map (fun n => "u" ++ Nat.repr n)

/-- Concrete resolver oracle for `batchNames`: answers the first chunk
(with a single resolved user) and fails every other chunk. -/
def batchOracle : List String → Option (List RUser) :=
  fun c => if c = batchNames.take 100 then some [⟨"u0", 7⟩] else none

/-! ### Association-list (JS object) lemmas -/

theorem jsLookup_jsSet_self {α β : Type} [DecidableEq α]
    (m : List (α × β)) (k : α) (v : β) :
    jsLookup (jsSet m k v) k = some v := by
  induction m with
  | nil => simp [jsSet, jsLookup]
  | cons p rest ih =>
    by_cases h : p.1 = k
    · simp [jsSet, h, jsLookup]
    · simp [jsSet, h, jsLookup, ih]

theorem jsLookup_jsSet_ne {α β : Type} [DecidableEq α]
    (m : List (α × β)) (k k' : α) (v : β) (h : k' ≠ k) :
    jsLookup (jsSet m k v) k' = jsLookup m k' := by
  have hk : ¬ k = k' := fun hh => h hh.symm
  induction m with
  | nil => simp [jsSet, jsLookup, hk]
  | cons p rest ih =>
    by_cases hp : p.1 = k
    · subst hp
      simp [jsSet, jsLookup, hk]
    · simp only [jsSet, hp, if_false, jsLookup]
      by_cases hp' : p.1 = k'
      · simp [hp']
      · simp [hp', ih]

theorem mem_jsSet {α β : Type} [DecidableEq α]
    (m : List (α × β)) (k : α) (v : β) (q : α × β)
    (hq : q ∈ jsSet m k v) : q ∈ m ∨ q = (k, v) := by
  induction m with
  | nil => simpa [jsSet] using hq
  | cons p rest ih =>
    by_cases h : p.1 = k
    · simp only [jsSet, h, if_true] at hq
      rcases List.mem_cons.1 hq with h1 | h1
      · exact Or.inr h1
      · exact Or.inl (List.mem_cons_of_mem _ h1)
    · simp only [jsSet, h, if_false] at hq
      rcases List.mem_cons.1 hq with h1 | h1
      · exact Or.inl (h1 ▸ List.mem_cons_self _ _)
      · rcases ih h1 with h2 | h2
        · exact Or.inl (List.mem_cons_of_mem _ h2)
        · exact Or.inr h2

theorem jsLookup_eq_some_mem {α β : Type} [DecidableEq α]
    (m : List (α × β)) (k : α) (v : β)
    (h : jsLookup m k = some v) : (k, v) ∈ m := by
  induction m with
  | nil => simp [jsLookup] at h
  | cons p rest ih =>
    by_cases hp : p.1 = k
    · simp only [jsLookup, hp, if_true, Option.some.injEq] at h
      subst h
      have : p = (k, p.2) := by
        cases p; simp at hp ⊢; exact hp
      exact this ▸ List.mem_cons_self _ _
    · simp only [jsLookup, hp, if_false] at h
      exact List.mem_cons_of_mem _ (ih h)

/-! ### Fold-of-assignments lemmas (for the maps built by the pipeline) -/

theorem jsLookup_foldl_of_no_key {α β γ : Type} [DecidableEq α]
    (f : γ → α) (g : γ → β) (xs : List γ) (m0 : List (α × β)) (k : α)
    (h : ∀ x ∈ xs, f x ≠ k) :
    jsLookup (xs.foldl (fun m x => jsSet m (f x) (g x)) m0) k = jsLookup m0 k := by
  induction xs generalizing m0 with
  | nil => simp
  | cons x xs ih =>
    simp only [List.foldl_cons]
    rw [ih _ (fun y hy => h y (List.mem_cons_of_mem _ hy))]
    exact jsLookup_jsSet_ne _ _ _ _ (fun hk => h x (List.mem_cons_self _ _) hk.symm)

theorem jsLookup_foldl_of_nodup {α β γ : Type} [DecidableEq α]
    (f : γ → α) (g : γ → β) (xs : List γ) (m0 : List (α × β)) (x : γ)
    (hnd : (xs.map f).Nodup) (hx : x ∈ xs) :
    jsLookup (xs.foldl (fun m y => jsSet m (f y) (g y)) m0) (f x) = some (g x) := by
  induction xs generalizing m0 with
  | nil => simp at hx
  | cons y ys ih =>
    simp only [List.map_cons, List.nodup_cons, List.mem_map] at hnd
    rcases List.mem_cons.1 hx with rfl | hx'
    · simp only [List.foldl_cons]
      rw [jsLookup_foldl_of_no_key]
      · exact jsLookup_jsSet_self _ _ _
      · intro z hz hzx
        exact hnd.1 ⟨z, hz, hzx⟩
    · simp only [List.foldl_cons]
      exact ih _ hnd.2 hx'

theorem mem_foldl_jsSet {α β γ : Type} [DecidableEq α]
    (f : γ → α) (g : γ → β) (xs : List γ) (m0 : List (α × β)) (q : α × β)
    (hq : q ∈ xs.foldl (fun m x => jsSet m (f x) (g x)) m0) :
    q ∈ m0 ∨ ∃ x ∈ xs, q = (f x, g x) := by
  induction xs generalizing m0 with
  | nil => exact Or.inl (by simpa using hq)
  | cons x xs ih =>
    simp only [List.foldl_cons] at hq
    rcases ih _ hq with h1 | ⟨y, hy, hq'⟩
    · rcases mem_jsSet _ _ _ _ h1 with h2 | h2
      · exact Or.inl h2
      · exact Or.inr ⟨x, List.mem_cons_self _ _, h2⟩
    · exact Or.inr ⟨y, List.mem_cons_of_mem _ hy, hq'⟩

/-! ### First-occurrence deduplication lemmas -/

theorem mem_dedupFirstAux (seen l : List String) (x : String) :
    x ∈ dedupFirstAux seen l ↔ x ∈ l ∧ x ∉ seen := by
  induction l generalizing seen with
  | nil => simp [dedupFirstAux]
  | cons a l ih =>
    by_cases ha : a ∈ seen
    · rw [dedupFirstAux, if_pos ha, ih]
      constructor
      · rintro ⟨h1, h2⟩
        exact ⟨List.mem_cons_of_mem _ h1, h2⟩
      · rintro ⟨h1, h2⟩
        rcases List.mem_cons.1 h1 with rfl | h1
        · exact absurd ha h2
        · exact ⟨h1, h2⟩
    · rw [dedupFirstAux, if_neg ha]
      constructor
      · intro hx
        rcases List.mem_cons.1 hx with rfl | hx'
        · exact ⟨List.mem_cons_self _ _, ha⟩
        · rcases (ih _).1 hx' with ⟨h1, h2⟩
          refine ⟨List.mem_cons_of_mem _ h1, fun hs => h2 (List.mem_cons_of_mem _ hs)⟩
      · rintro ⟨h1, h2⟩
        rcases List.mem_cons.1 h1 with rfl | h1
        · exact List.mem_cons_self _ _
        · by_cases hxa : x = a
          · exact hxa ▸ List.mem_cons_self _ _
          · refine List.mem_cons_of_mem _ ((ih _).2 ⟨h1, fun hs => ?_⟩)
            rcases List.mem_cons.1 hs with h3 | h3
            · exact hxa h3
            · exact h2 h3

theorem nodup_dedupFirstAux (seen l : List String) :
    (dedupFirstAux seen l).Nodup := by
  induction l generalizing seen with
  | nil => simp [dedupFirstAux]
  | cons a l ih =>
    by_cases ha : a ∈ seen
    · rw [dedupFirstAux, if_pos ha]
      exact ih _
    · rw [dedupFirstAux, if_neg ha]
      refine List.nodup_cons.2 ⟨fun hmem => ?_, ih _⟩
      exact ((mem_dedupFirstAux _ _ _).1 hmem).2 (List.mem_cons_self _ _)

theorem sublist_dedupFirstAux (seen l : List String) :
    (dedupFirstAux seen l).Sublist l := by
  induction l generalizing seen with
  | nil => simp [dedupFirstAux]
  | cons a l ih =>
    by_cases ha : a ∈ seen
    · rw [dedupFirstAux, if_pos ha]
      exact (ih _).cons _
    · rw [dedupFirstAux, if_neg ha]
      exact (ih _).cons₂ _

theorem dedupFirstAux_congr (s₁ s₂ l : List String)
    (h : ∀ x, x ∈ s₁ ↔ x ∈ s₂) :
    dedupFirstAux s₁ l = dedupFirstAux s₂ l := by
  induction l generalizing s₁ s₂ with
  | nil => simp [dedupFirstAux]
  | cons a l ih =>
    by_cases ha : a ∈ s₁
    · rw [dedupFirstAux, if_pos ha, dedupFirstAux, if_pos ((h a).1 ha)]
      exact ih _ _ h
    · rw [dedupFirstAux, if_neg ha, dedupFirstAux, if_neg (fun hs => ha ((h a).2 hs))]
      refine congrArg _ (ih _ _ fun x => ?_)
      simp only [List.mem_cons, h x]

theorem dedupFirstAux_cons_seen (a : String) (seen l : List String) :
    dedupFirstAux (a :: seen) l = dedupFirstAux seen (l.filter (fun b => b != a)) := by
  induction l generalizing a seen with
  | nil => simp [dedupFirstAux]
  | cons b l ih =>
    by_cases hba : b = a
    · subst hba
      have hf : (b :: l).filter (fun x => x != b) = l.filter (fun x => x != b) := by
        simp
      rw [hf, dedupFirstAux, if_pos (List.mem_cons_self _ _)]
      exact ih _ _
    · have hf : (b :: l).filter (fun x => x != a) = b :: l.filter (fun x => x != a) := by
        simp [hba]
      rw [hf]
      by_cases hb : b ∈ seen
      · rw [dedupFirstAux, if_pos (List.mem_cons_of_mem _ hb),
          dedupFirstAux, if_pos hb]
        exact ih _ _
      · have hnb : b ∉ a :: seen := by
          intro hmem
          rcases List.mem_cons.1 hmem with h1 | h1
          · exact hba h1
          · exact hb h1
        rw [dedupFirstAux, if_neg hnb, dedupFirstAux, if_neg hb]
        refine congrArg _ ?_
        rw [← ih a (b :: seen)]
        refine dedupFirstAux_congr _ _ _ fun x => ?_
        simp only [List.mem_cons]
        tauto

theorem dedupFirst_cons (a : String) (l : List String) :
    dedupFirst (a :: l) = a :: dedupFirst (l.filter (fun b => b != a)) := by
  rw [dedupFirst, dedupFirstAux, if_neg (List.not_mem_nil a), dedupFirst]
  exact congrArg _ (dedupFirstAux_cons_seen a [] l)

theorem mem_dedupFirst (l : List String) (x : String) :
    x ∈ dedupFirst l ↔ x ∈ l := by
  rw [dedupFirst, mem_dedupFirstAux]
  simp

theorem nodup_dedupFirst (l : List String) : (dedupFirst l).Nodup :=
  nodup_dedupFirstAux [] l

theorem sublist_dedupFirst (l : List String) : (dedupFirst l).Sublist l :=
  sublist_dedupFirstAux [] l

theorem length_dedupFirst (l : List String) :
    (dedupFirst l).length = l.toFinset.card := by
  have h1 : (dedupFirst l).toFinset = l.toFinset := by
    ext x
    simp [List.mem_toFinset, mem_dedupFirst]
  rw [← h1, List.toFinset_card_of_nodup (nodup_dedupFirst l)]

/-! ### Chunking lemmas -/

theorem chunks100_nil : chunks100 [] = [] := by
  simp [chunks100]

theorem chunks100_cons (l : List String) (h : l ≠ []) :
    chunks100 l = l.take 100 :: chunks100 (l.drop 100) := by
  have hlen : 1 ≤ l.length := List.length_pos.2 h
  have hn : (l.length + 99) / 100 = (l.length - 100 + 99) / 100 + 1 := by
    omega
  rw [chunks100, hn, List.range_succ_eq_map, List.map_cons, List.map_map]
  congr 1
  rw [chunks100, List.length_drop]
  refine List.map_congr_left fun j hj => ?_
  have hidx : 100 * Nat.succ j = 100 + 100 * j := by omega
  simp only [Function.comp_apply, List.drop_drop, hidx]

theorem chunks100_length_le (l c : List String) (hc : c ∈ chunks100 l) :
    c.length ≤ 100 := by
  rw [chunks100] at hc
  rcases List.mem_map.1 hc with ⟨j, hj, rfl⟩
  rw [List.length_take]
  exact min_le_left _ _

theorem chunks100_flatten (l : List String) : (chunks100 l).flatten = l := by
  generalize hn : l.length = n
  induction n using Nat.strong_induction_on generalizing l with
  | _ n ih =>
    by_cases h : l = []
    · subst h
      simp [chunks100_nil]
    · have hlt : (l.drop 100).length < n := by
        subst hn
        rw [List.length_drop]
        have hpos : 0 < l.length := List.length_pos.2 h
        omega
      rw [chunks100_cons l h, List.flatten_cons, ih _ hlt _ rfl, List.take_append_drop]

theorem chunks100_sizes_250 (l : List String) (h : l.length = 250) :
    (chunks100 l).map List.length = [100, 100, 50] := by
  have h1 : l ≠ [] := by
    intro hh
    rw [hh] at h
    simp at h
  have h2 : l.drop 100 ≠ [] := by
    intro hh
    have hc := congrArg List.length hh
    rw [List.length_drop, h] at hc
    simp at hc
  have h3 : (l.drop 100).drop 100 ≠ [] := by
    intro hh
    have hc := congrArg List.length hh
    rw [List.length_drop, List.length_drop, h] at hc
    simp at hc
  have h4 : ((l.drop 100).drop 100).drop 100 = [] := by
    refine List.length_eq_zero.1 ?_
    rw [List.length_drop, List.length_drop, List.length_drop, h]
  rw [chunks100_cons _ h1, chunks100_cons _ h2, chunks100_cons _ h3, h4, chunks100_nil]
  simp only [List.map_cons, List.map_nil, List.length_take, List.length_drop, h]
  norm_num

/-! ### Username resolver lemmas -/

theorem getUserIds_snd (us : List String)
    (o : List String → Option (List RUser)) :
    (getUserIds us o).2 = (chunks100 us).map UpstreamCall.userLookup := by
  rw [getUserIds]
  by_cases h : us.length = 0
  · rw [if_pos h]
    have hnil : us = [] := List.length_eq_zero.1 h
    subst hnil
    rw [chunks100_nil]
    rfl
  · rw [if_neg h]

theorem getUserIds_fst_eq (us : List String)
    (o : List String → Option (List RUser)) :
    (getUserIds us o).1
      = (respPairs (chunks100 us) o).foldl (fun m p => jsSet m p.1 p.2) [] := by
  rw [getUserIds]
  by_cases h : us.length = 0
  · rw [if_pos h]
    have hnil : us = [] := List.length_eq_zero.1 h
    subst hnil
    rw [chunks100_nil]
    simp [respPairs]
  · rw [if_neg h]
    have hfun : (fun (m : List (String × Nat)) c =>
        match o c with
        | some rs => rs.foldl (fun m r => jsSet m (jsToLower r.name) r.id) m
        | none => m)
      = fun (m : List (String × Nat)) c =>
          List.foldl (fun m p => jsSet m p.1 p.2) m
            (((o c).getD []).map (fun r => ((jsToLower r.name), r.id))) := by
      funext m c
      cases hoc : o c with
      | none => simp
      | some rs => simp [List.foldl_map]
    dsimp only
    rw [respPairs, List.foldl_flatten, List.foldl_map, hfun]

theorem mem_respPairs (cs : List (List String))
    (o : List String → Option (List RUser)) (q : String × Nat)
    (hq : q ∈ respPairs cs o) :
    ∃ c ∈ cs, ∃ rs, o c = some rs ∧ ∃ r ∈ rs, q = ((jsToLower r.name), r.id) := by
  rw [respPairs] at hq
  rcases List.mem_flatten.1 hq with ⟨l, hl, hql⟩
  rcases List.mem_map.1 hl with ⟨c, hc, rfl⟩
  rcases List.mem_map.1 hql with ⟨r, hr, rfl⟩
  cases hoc : o c with
  | none =>
    rw [hoc] at hr
    simp at hr
  | some rs =>
    rw [hoc] at hr
    exact ⟨c, hc, rs, hoc, r, by simpa using hr, rfl⟩

theorem mem_getUserIds_fst (us : List String)
    (o : List String → Option (List RUser)) (q : String × Nat)
    (hq : q ∈ (getUserIds us o).1) :
    ∃ c ∈ chunks100 us, ∃ rs, o c = some rs ∧ ∃ r ∈ rs, q = ((jsToLower r.name), r.id) := by
  rw [getUserIds_fst_eq] at hq
  rcases mem_foldl_jsSet Prod.fst Prod.snd _ _ _ hq with h1 | ⟨p, hp, rfl⟩
  · simp at h1
  · exact mem_respPairs _ _ _ hp

/-! ### Aggregation-loop case equations -/

theorem processUser_not_found (um : List (String × Nat)) (idn : List (Nat × String))
    (pm : List (Nat × Presence)) (po : Nat → Option (Option String)) (u : String)
    (hum : jsLookup um (jsToLower u) = none) :
    processUser um idn pm po u
      = (mkErrResult u "Pengguna tidak ditemukan di Roblox.", []) := by
  simp [processUser, hum]

theorem processUser_zero_id (um : List (String × Nat)) (idn : List (Nat × String))
    (pm : List (Nat × Presence)) (po : Nat → Option (Option String)) (u : String)
    (hum : jsLookup um (jsToLower u) = some 0) :
    processUser um idn pm po u
      = (mkErrResult u "Pengguna tidak ditemukan di Roblox.", []) := by
  simp [processUser, hum]

theorem processUser_no_presence (um : List (String × Nat)) (idn : List (Nat × String))
    (pm : List (Nat × Presence)) (po : Nat → Option (Option String)) (u : String)
    (uid : Nat) (hum : jsLookup um (jsToLower u) = some uid) (huid : uid ≠ 0)
    (hpm : jsLookup pm uid = none) :
    processUser um idn pm po u
      = (mkOkResult (jsOrStr (jsLookup idn uid) u) uid "Offline"
          none none "Offline" "Offline", []) := by
  simp [processUser, hum, huid, hpm]

theorem processUser_type3 (um : List (String × Nat)) (idn : List (Nat × String))
    (pm : List (Nat × Presence)) (po : Nat → Option (Option String)) (u : String)
    (uid : Nat) (p : Presence)
    (hum : jsLookup um (jsToLower u) = some uid) (huid : uid ≠ 0)
    (hpm : jsLookup pm uid = some p) (h3 : p.userPresenceType = 3) :
    processUser um idn pm po u
      = (mkOkResult (jsOrStr (jsLookup idn uid) u) uid "In Game"
          p.placeId p.universeId
          (if truthyN p.placeId then (getGameInfo (jsOrN p.universeId p.placeId) po).1
           else "In Game (placeId hidden)")
          p.lastLocation,
         (getGameInfo (jsOrN p.universeId p.placeId) po).2) := by
  simp [processUser, hum, huid, hpm, h3]

theorem processUser_type2 (um : List (String × Nat)) (idn : List (Nat × String))
    (pm : List (Nat × Presence)) (po : Nat → Option (Option String)) (u : String)
    (uid : Nat) (p : Presence)
    (hum : jsLookup um (jsToLower u) = some uid) (huid : uid ≠ 0)
    (hpm : jsLookup pm uid = some p) (h2 : p.userPresenceType = 2) :
    processUser um idn pm po u
      = (mkOkResult (jsOrStr (jsLookup idn uid) u) uid "In Game"
          p.placeId p.universeId "In Studio" p.lastLocation, []) := by
  simp [processUser, hum, huid, hpm, h2]

theorem processUser_type1 (um : List (String × Nat)) (idn : List (Nat × String))
    (pm : List (Nat × Presence)) (po : Nat → Option (Option String)) (u : String)
    (uid : Nat) (p : Presence)
    (hum : jsLookup um (jsToLower u) = some uid) (huid : uid ≠ 0)
    (hpm : jsLookup pm uid = some p) (h1 : p.userPresenceType = 1) :
    processUser um idn pm po u
      = (mkOkResult (jsOrStr (jsLookup idn uid) u) uid "Online"
          p.placeId p.universeId "Online di Website" p.lastLocation, []) := by
  simp [processUser, hum, huid, hpm, h1]

theorem processUser_default (um : List (String × Nat)) (idn : List (Nat × String))
    (pm : List (Nat × Presence)) (po : Nat → Option (Option String)) (u : String)
    (uid : Nat) (p : Presence)
    (hum : jsLookup um (jsToLower u) = some uid) (huid : uid ≠ 0)
    (hpm : jsLookup pm uid = some p)
    (h3 : p.userPresenceType ≠ 3) (h2 : p.userPresenceType ≠ 2)
    (h1 : p.userPresenceType ≠ 1) :
    processUser um idn pm po u
      = (mkOkResult (jsOrStr (jsLookup idn uid) u) uid "Offline"
          p.placeId p.universeId "Offline" p.lastLocation, []) := by
  simp [processUser, hum, huid, hpm, h3, h2, h1]

/-! ### Handler unfolding lemmas -/

theorem statusHandler_none (userOracle : List String → Option (List RUser))
    (presenceOracle : List Nat → Option (List Presence))
    (po : Nat → Option (Option String)) :
    statusHandler none userOracle presenceOracle po
      = (Except.error "Daftar pengguna kosong.", []) := rfl

theorem statusHandler_empty (userOracle : List String → Option (List RUser))
    (presenceOracle : List Nat → Option (List Presence))
    (po : Nat → Option (Option String)) :
    statusHandler (some []) userOracle presenceOracle po
      = (Except.error "Daftar pengguna kosong.", []) := rfl

theorem statusHandler_valid (us : List String)
    (userOracle : List String → Option (List RUser))
    (presenceOracle : List Nat → Option (List Presence))
    (po : Nat → Option (Option String)) (h : us.length ≠ 0) :
    statusHandler (some us) userOracle presenceOracle po
      = (Except.ok ((runPipeline us userOracle presenceOracle po).1.map (fun q => q.1)),
         (runPipeline us userOracle presenceOracle po).2
           ++ ((runPipeline us userOracle presenceOracle po).1.map (fun q => q.2)).flatten) := by
  simp [statusHandler, h]

theorem runPipeline_fst (us : List String)
    (userOracle : List String → Option (List RUser))
    (presenceOracle : List Nat → Option (List Presence))
    (po : Nat → Option (Option String)) :
    (runPipeline us userOracle presenceOracle po).1
      = (dedupFirst (cleanUsers us)).map
          (processUser
            (getUserIds (dedupFirst (cleanUsers us)) userOracle).1
            (buildReverseMap (getUserIds (dedupFirst (cleanUsers us)) userOracle).1)
            (buildPresenceMap
              (fetchPresences
                ((getUserIds (dedupFirst (cleanUsers us)) userOracle).1.map (fun kv => kv.2))
                presenceOracle).1)
            po) := rfl

theorem runPipeline_snd (us : List String)
    (userOracle : List String → Option (List RUser))
    (presenceOracle : List Nat → Option (List Presence))
    (po : Nat → Option (Option String)) :
    (runPipeline us userOracle presenceOracle po).2
      = (getUserIds (dedupFirst (cleanUsers us)) userOracle).2
          ++ (fetchPresences
                ((getUserIds (dedupFirst (cleanUsers us)) userOracle).1.map (fun kv => kv.2))
                presenceOracle).2 := rfl

/-! ### Truthiness helper lemmas -/

theorem truthyN_eq_some (o : Option Nat) (n : Nat) (h : o = some n)
    (ht : truthyN o = true) : n ≠ 0 := by
  subst h
  simpa [truthyN] using ht

theorem truthyN_jsOrN_right (a b : Option Nat) (hb : truthyN b = true) :
    truthyN (jsOrN a b) = true := by
  by_cases h : truthyN a
  · simp [jsOrN, h]
  · simp [jsOrN, h, hb]

theorem processUser_username_resolved (um : List (String × Nat))
    (idn : List (Nat × String)) (pm : List (Nat × Presence))
    (po : Nat → Option (Option String)) (u : String) (uid : Nat)
    (hum : jsLookup um (jsToLower u) = some uid) (huid : uid ≠ 0) :
    ((processUser um idn pm po u).1).username = jsOrStr (jsLookup idn uid) u := by
  cases hpm : jsLookup pm uid with
  | none =>
    rw [processUser_no_presence um idn pm po u uid hum huid hpm]
    rfl
  | some p =>
    by_cases h3 : p.userPresenceType = 3
    · rw [processUser_type3 um idn pm po u uid p hum huid hpm h3]
      rfl
    · by_cases h2 : p.userPresenceType = 2
      · rw [processUser_type2 um idn pm po u uid p hum huid hpm h2]
        rfl
      · by_cases h1 : p.userPresenceType = 1
        · rw [processUser_type1 um idn pm po u uid p hum huid hpm h1]
          rfl
        · rw [processUser_default um idn pm po u uid p hum huid hpm h3 h2 h1]
          rfl

/-! ### Claim theorems -/

/-- C7: the Place Info Resolver returns the sentinel "Unknown Place"
without making a network call when the identifier is absent/falsy, and on
lookup failure — whether a thrown network error or an empty response body —
it returns the same sentinel (after its single lookup call), so callers
cannot distinguish a missing place from a failed lookup. -/
theorem place_resolver_sentinel (po : Nat → Option (Option String)) (n : Nat)
    (hn : n ≠ 0) :
    (∀ id : Option Nat, truthyN id = false →
        getGameInfo id po = ("Unknown Place", []))
    ∧ (po n = none →
        getGameInfo (some n) po = ("Unknown Place", [UpstreamCall.placeLookup n]))
    ∧ (po n = some none →
        getGameInfo (some n) po = ("Unknown Place", [UpstreamCall.placeLookup n])) := by
  refine ⟨?_, ?_, ?_⟩
  · intro id hid
    cases id with
    | none => rfl
    | some m =>
      have hm : m = 0 := by
        by_contra hm
        simp [truthyN, hm] at hid
      subst hm
      simp [getGameInfo]
  · intro h
    simp [getGameInfo, hn, h]
  · intro h
    simp [getGameInfo, hn, h, jsOrStr]

theorem place_resolver_sentinel_witness :
    getGameInfo none (fun _ => none) = ("Unknown Place", [])
    ∧ getGameInfo (some 5) (fun _ => none)
        = ("Unknown Place", [UpstreamCall.placeLookup 5])
    ∧ getGameInfo (some 5) (fun _ => some none)
        = ("Unknown Place", [UpstreamCall.placeLookup 5]) :=
  ⟨(place_resolver_sentinel (fun _ => none) 5 (by decide)).1 none rfl,
   (place_resolver_sentinel (fun _ => none) 5 (by decide)).2.1 rfl,
   (place_resolver_sentinel (fun _ => some none) 5 (by decide)).2.2 rfl⟩

/-- C10: a presence record whose `userPresenceType` lies outside the
documented enum {0,1,2,3} falls through every branch of the classifier to
the defaults: status "Offline" and mapName "Offline", while placeId,
universeId and lastLocation are still copied verbatim from the presence
record, and no place lookup occurs. -/
theorem unknown_presence_type_defaults (um : List (String × Nat))
    (idn : List (Nat × String)) (pm : List (Nat × Presence))
    (po : Nat → Option (Option String)) (u : String) (uid : Nat) (p : Presence)
    (hum : jsLookup um (jsToLower u) = some uid) (huid : uid ≠ 0)
    (hpm : jsLookup pm uid = some p)
    (htype : p.userPresenceType ∉ ([0, 1, 2, 3] : List Nat)) :
    processUser um idn pm po u
      = (mkOkResult (jsOrStr (jsLookup idn uid) u) uid "Offline"
          p.placeId p.universeId "Offline" p.lastLocation, []) := by
  have h3 : p.userPresenceType ≠ 3 := fun h => htype (by simp [h])
  have h2 : p.userPresenceType ≠ 2 := fun h => htype (by simp [h])
  have h1 : p.userPresenceType ≠ 1 := fun h => htype (by simp [h])
  exact processUser_default um idn pm po u uid p hum huid hpm h3 h2 h1

theorem unknown_presence_type_defaults_witness :
    processUser [("bob", 5)] [(5, "bob")] [(5, ⟨5, 4, some 10, some 20, "loc"⟩)]
        (fun _ => none) "bob"
      = (mkOkResult "bob" 5 "Offline" (some 10) (some 20) "Offline" "loc", []) :=
  unknown_presence_type_defaults [("bob", 5)] [(5, "bob")]
    [(5, ⟨5, 4, some 10, some 20, "loc"⟩)] (fun _ => none) "bob" 5
    ⟨5, 4, some 10, some 20, "loc"⟩ (by decide) (by decide) (by decide) (by decide)

/-- C5: when the bulk presence call fails the fetched presence collection
is empty, and any resolved user with no presence record in the presence
map is rendered with status "Offline" and mapName "Offline" (with the
placeId/universeId/lastLocation defaults). -/
theorem presence_failure_offline (ids : List Nat)
    (presenceOracle : List Nat → Option (List Presence))
    (um : List (String × Nat)) (idn : List (Nat × String))
    (pm : List (Nat × Presence)) (po : Nat → Option (Option String))
    (u : String) (uid : Nat)
    (ho : presenceOracle ids = none)
    (hum : jsLookup um (jsToLower u) = some uid) (huid : uid ≠ 0)
    (hpm : jsLookup pm uid = none) :
    (fetchPresences ids presenceOracle).1 = []
    ∧ processUser um idn pm po u
        = (mkOkResult (jsOrStr (jsLookup idn uid) u) uid "Offline"
            none none "Offline" "Offline", []) := by
  constructor
  · by_cases h : ids.length > 0
    · simp [fetchPresences, h, ho]
    · simp [fetchPresences, h]
  · exact processUser_no_presence um idn pm po u uid hum huid hpm

theorem presence_failure_offline_witness :
    (fetchPresences [5] (fun _ => none)).1 = []
    ∧ processUser [("bob", 5)] [(5, "bob")] [] (fun _ => none) "bob"
        = (mkOkResult "bob" 5 "Offline" none none "Offline" "Offline", []) :=
  presence_failure_offline [5] (fun _ => none) [("bob", 5)] [(5, "bob")] []
    (fun _ => none) "bob" 5 rfl (by decide) (by decide) rfl

/-- C2 counterexample: a type-3 presence with no placeId but a populated
universeId.  The claim says no place-lookup call occurs, yet the handler
first evaluates `getGameInfo(universeId || placeId)` — issuing a place
lookup for universeId 1 — and only afterwards overwrites mapName with the
"In Game (placeId hidden)" sentinel. -/
theorem inGame_hidden_place_counterexample :
    (processUser [("bob", 5)] [(5, "bob")]
        [(5, ⟨5, 3, none, some 1, "loc"⟩)] (fun _ => some (some "CoolGame")) "bob").2
      = [UpstreamCall.placeLookup 1]
    ∧ ((processUser [("bob", 5)] [(5, "bob")]
        [(5, ⟨5, 3, none, some 1, "loc"⟩)] (fun _ => some (some "CoolGame")) "bob").1).mapName
      = some "In Game (placeId hidden)" := by
  constructor <;> rfl

/-- C2 amended: for a type-3 presence the status is "In Game"; with a
populated (truthy) placeId the mapName is the place name resolved via the
Place Info Resolver on universeId-or-placeId when the lookup succeeds;
with no (falsy) placeId the mapName is the "In Game (placeId hidden)"
sentinel, but a place-lookup call still occurs whenever universeId is
populated (the resolver is invoked on universeId-or-placeId before the
sentinel overwrite) — no call occurs only when universeId-or-placeId is
falsy too. -/
theorem inGame_mapName_amended (um : List (String × Nat))
    (idn : List (Nat × String)) (pm : List (Nat × Presence))
    (po : Nat → Option (Option String)) (u : String) (uid : Nat) (p : Presence)
    (hum : jsLookup um (jsToLower u) = some uid) (huid : uid ≠ 0)
    (hpm : jsLookup pm uid = some p) (h3 : p.userPresenceType = 3) :
    ((processUser um idn pm po u).1).status = some "In Game"
    ∧ (∀ n nm, truthyN p.placeId = true →
        jsOrN p.universeId p.placeId = some n → po n = some (some nm) → nm ≠ "" →
        ((processUser um idn pm po u).1).mapName = some nm
        ∧ (processUser um idn pm po u).2 = [UpstreamCall.placeLookup n])
    ∧ (truthyN p.placeId = false →
        ((processUser um idn pm po u).1).mapName = some "In Game (placeId hidden)"
        ∧ (truthyN (jsOrN p.universeId p.placeId) = false →
            (processUser um idn pm po u).2 = [])
        ∧ (∀ n, p.universeId = some n → n ≠ 0 →
            (processUser um idn pm po u).2 = [UpstreamCall.placeLookup n])) := by
  rw [processUser_type3 um idn pm po u uid p hum huid hpm h3]
  refine ⟨rfl, ?_, ?_⟩
  · intro n nm hpid hn hpo hnm
    have hn0 : n ≠ 0 := truthyN_eq_some _ _ hn (truthyN_jsOrN_right _ _ hpid)
    have hval : getGameInfo (jsOrN p.universeId p.placeId) po
        = (nm, [UpstreamCall.placeLookup n]) := by
      rw [hn]
      simp [getGameInfo, hn0, hpo, jsOrStr, hnm]
    constructor
    · simp [mkOkResult, hpid, hval]
    · simp [hval]
  · intro hpid
    refine ⟨by simp [mkOkResult, hpid], ?_, ?_⟩
    · intro hfalse
      cases hjs : jsOrN p.universeId p.placeId with
      | none => simp [getGameInfo, hjs]
      | some m =>
        have hm : m = 0 := by
          rw [hjs] at hfalse
          simpa [truthyN] using hfalse
        subst hm
        simp [getGameInfo, hjs]
    · intro n hun hn0
      have hjs : jsOrN p.universeId p.placeId = some n := by
        have ht : truthyN p.universeId = true := by
          rw [hun]
          simp [truthyN, hn0]
        rw [jsOrN, if_pos ht, hun]
      cases hpo : po n with
      | none => simp [getGameInfo, hjs, hn0, hpo]
      | some x => simp [getGameInfo, hjs, hn0, hpo]

theorem inGame_mapName_amended_witness :
    ((processUser [("bob", 5)] [(5, "bob")] [(5, ⟨5, 3, some 10, some 20, "x"⟩)]
        (fun _ => some (some "Lobby")) "bob").1).status = some "In Game"
    ∧ ((processUser [("bob", 5)] [(5, "bob")] [(5, ⟨5, 3, some 10, some 20, "x"⟩)]
        (fun _ => some (some "Lobby")) "bob").1).mapName = some "Lobby"
    ∧ (processUser [("bob", 5)] [(5, "bob")] [(5, ⟨5, 3, some 10, some 20, "x"⟩)]
        (fun _ => some (some "Lobby")) "bob").2 = [UpstreamCall.placeLookup 20]
    ∧ ((processUser [("bob", 5)] [(5, "bob")] [(5, ⟨5, 3, none, none, "x"⟩)]
        (fun _ => some (some "Lobby")) "bob").1).mapName
        = some "In Game (placeId hidden)"
    ∧ (processUser [("bob", 5)] [(5, "bob")] [(5, ⟨5, 3, none, none, "x"⟩)]
        (fun _ => some (some "Lobby")) "bob").2 = [] := by
  have hA := inGame_mapName_amended [("bob", 5)] [(5, "bob")]
    [(5, ⟨5, 3, some 10, some 20, "x"⟩)] (fun _ => some (some "Lobby")) "bob" 5
    ⟨5, 3, some 10, some 20, "x"⟩ (by decide) (by decide) (by decide) (by decide)
  have hB := inGame_mapName_amended [("bob", 5)] [(5, "bob")]
    [(5, ⟨5, 3, none, none, "x"⟩)] (fun _ => some (some "Lobby")) "bob" 5
    ⟨5, 3, none, none, "x"⟩ (by decide) (by decide) (by decide) (by decide)
  have hA2 := hA.2.1 20 "Lobby" (by decide) (by decide) rfl (by decide)
  have hB2 := hB.2.2 (by decide)
  exact ⟨hA.1, hA2.1, hA2.2, hB2.1, hB2.2.1 (by decide)⟩

/-- C1: for every non-empty input list the endpoint answers with a success
whose records are exactly one aggregation record per distinct, trimmed,
non-empty username — none dropped, none duplicated — in first-occurrence
input order: the output is the image of the deduplicated cleaned input
under `processUser`, the deduplicated list has one entry per distinct
cleaned username (length equals the number of distinct ones, no
duplicates, same elements), and it is the subsequence of the cleaned
input keeping each first occurrence. -/
theorem status_output_matches_distinct_input (us : List String)
    (userOracle : List String → Option (List RUser))
    (presenceOracle : List Nat → Option (List Presence))
    (po : Nat → Option (Option String))
    (hne : us ≠ []) :
    (statusHandler (some us) userOracle presenceOracle po).1
      = Except.ok ((dedupFirst (cleanUsers us)).map (fun u =>
          (processUser
            (getUserIds (dedupFirst (cleanUsers us)) userOracle).1
            (buildReverseMap (getUserIds (dedupFirst (cleanUsers us)) userOracle).1)
            (buildPresenceMap
              (fetchPresences
                ((getUserIds (dedupFirst (cleanUsers us)) userOracle).1.map (fun kv => kv.2))
                presenceOracle).1)
            po u).1))
    ∧ (dedupFirst (cleanUsers us)).length = (cleanUsers us).toFinset.card
    ∧ (dedupFirst (cleanUsers us)).Nodup
    ∧ (∀ x, x ∈ dedupFirst (cleanUsers us) ↔ x ∈ cleanUsers us)
    ∧ (dedupFirst (cleanUsers us)).Sublist (cleanUsers us)
    ∧ (∀ (a : String) (l : List String),
        dedupFirst (a :: l) = a :: dedupFirst (l.filter (fun b => b != a))) := by
  have hlen : us.length ≠ 0 := fun h => hne (List.length_eq_zero.1 h)
  refine ⟨?_, length_dedupFirst _, nodup_dedupFirst _,
    fun x => mem_dedupFirst _ x, sublist_dedupFirst _, dedupFirst_cons⟩
  rw [statusHandler_valid us userOracle presenceOracle po hlen]
  simp [runPipeline_fst, List.map_map, Function.comp]

theorem status_output_matches_distinct_input_witness :
    (statusHandler (some ["Bob", " alice ", "Bob", ""])
        (fun _ => some [⟨"Bob", 3⟩]) (fun _ => none) (fun _ => none)).1
      = Except.ok [mkOkResult "bob" 3 "Offline" none none "Offline" "Offline",
          mkErrResult "alice" "Pengguna tidak ditemukan di Roblox."]
    ∧ (dedupFirst (cleanUsers ["Bob", " alice ", "Bob", ""])).length
        = (cleanUsers ["Bob", " alice ", "Bob", ""]).toFinset.card := by
  have h := status_output_matches_distinct_input ["Bob", " alice ", "Bob", ""]
    (fun _ => some [⟨"Bob", 3⟩]) (fun _ => none) (fun _ => none) (by decide)
  exact ⟨h.1.trans (by rfl), h.2.1⟩

/-- C4 counterexample: a non-empty input list containing only a
whitespace-only username is not rejected — the endpoint returns a success
response with an empty result list (though indeed without making any
upstream call), contradicting the claimed client-error rejection. -/
theorem whitespace_only_not_rejected :
    statusHandler (some [" "]) (fun _ => none) (fun _ => none) (fun _ => none)
      = (Except.ok [], []) := by rfl

/-- C4 amended: an absent or empty input list is rejected with the client
error before any upstream call; a non-empty input list all of whose
entries trim to the empty string is NOT rejected — it produces a success
response with an empty result list, still without any upstream network
call. -/
theorem input_validation_amended (us : List String)
    (userOracle : List String → Option (List RUser))
    (presenceOracle : List Nat → Option (List Presence))
    (po : Nat → Option (Option String))
    (hne : us ≠ []) (hws : ∀ u ∈ us, jsTrim u = "") :
    statusHandler none userOracle presenceOracle po
      = (Except.error "Daftar pengguna kosong.", [])
    ∧ statusHandler (some []) userOracle presenceOracle po
      = (Except.error "Daftar pengguna kosong.", [])
    ∧ statusHandler (some us) userOracle presenceOracle po
      = (Except.ok [], []) := by
  refine ⟨statusHandler_none _ _ _, statusHandler_empty _ _ _, ?_⟩
  have hlen : us.length ≠ 0 := fun h => hne (List.length_eq_zero.1 h)
  have hclean : cleanUsers us = [] := by
    rw [cleanUsers]
    refine List.filter_eq_nil_iff.2 ?_
    intro a ha
    rcases List.mem_map.1 ha with ⟨u, hu, rfl⟩
    simp [hws u hu]
  have hdd : dedupFirst (cleanUsers us) = [] := by
    rw [hclean]
    rfl
  rw [statusHandler_valid us userOracle presenceOracle po hlen]
  simp [runPipeline_fst, runPipeline_snd, hdd, getUserIds, fetchPresences]

theorem input_validation_amended_witness :
    statusHandler none (fun _ => none) (fun _ => none) (fun _ => none)
      = (Except.error "Daftar pengguna kosong.", [])
    ∧ statusHandler (some []) (fun _ => none) (fun _ => none) (fun _ => none)
      = (Except.error "Daftar pengguna kosong.", [])
    ∧ statusHandler (some [" ", "\t"]) (fun _ => none) (fun _ => none) (fun _ => none)
      = (Except.ok [], []) :=
  input_validation_amended [" ", "\t"] (fun _ => none) (fun _ => none)
    (fun _ => none) (by decide) (by decide)

/-- C6: a unique username absent from the resolver's output mapping still
yields a record — the error record carrying the "not found" message with
no userId and no status populated — inside an overall success response
that also contains all the other records. -/
theorem unresolved_username_error_record (us : List String)
    (userOracle : List String → Option (List RUser))
    (presenceOracle : List Nat → Option (List Presence))
    (po : Nat → Option (Option String)) (u : String)
    (hne : us ≠ [])
    (hu : u ∈ dedupFirst (cleanUsers us))
    (hur : jsLookup (getUserIds (dedupFirst (cleanUsers us)) userOracle).1
      (jsToLower u) = none) :
    (∃ rs, (statusHandler (some us) userOracle presenceOracle po).1 = Except.ok rs
      ∧ (processUser
          (getUserIds (dedupFirst (cleanUsers us)) userOracle).1
          (buildReverseMap (getUserIds (dedupFirst (cleanUsers us)) userOracle).1)
          (buildPresenceMap
            (fetchPresences
              ((getUserIds (dedupFirst (cleanUsers us)) userOracle).1.map (fun kv => kv.2))
              presenceOracle).1)
          po u).1 ∈ rs)
    ∧ (processUser
        (getUserIds (dedupFirst (cleanUsers us)) userOracle).1
        (buildReverseMap (getUserIds (dedupFirst (cleanUsers us)) userOracle).1)
        (buildPresenceMap
          (fetchPresences
            ((getUserIds (dedupFirst (cleanUsers us)) userOracle).1.map (fun kv => kv.2))
            presenceOracle).1)
        po u).1 = mkErrResult u "Pengguna tidak ditemukan di Roblox."
    ∧ (mkErrResult u "Pengguna tidak ditemukan di Roblox.").error
        = some "Pengguna tidak ditemukan di Roblox."
    ∧ (mkErrResult u "Pengguna tidak ditemukan di Roblox.").userId = none
    ∧ (mkErrResult u "Pengguna tidak ditemukan di Roblox.").status = none := by
  have hlen : us.length ≠ 0 := fun h => hne (List.length_eq_zero.1 h)
  have key := processUser_not_found
    (getUserIds (dedupFirst (cleanUsers us)) userOracle).1
    (buildReverseMap (getUserIds (dedupFirst (cleanUsers us)) userOracle).1)
    (buildPresenceMap
      (fetchPresences
        ((getUserIds (dedupFirst (cleanUsers us)) userOracle).1.map (fun kv => kv.2))
        presenceOracle).1)
    po u hur
  have hmap : (statusHandler (some us) userOracle presenceOracle po).1
      = Except.ok ((dedupFirst (cleanUsers us)).map (fun v =>
          (processUser
            (getUserIds (dedupFirst (cleanUsers us)) userOracle).1
            (buildReverseMap (getUserIds (dedupFirst (cleanUsers us)) userOracle).1)
            (buildPresenceMap
              (fetchPresences
                ((getUserIds (dedupFirst (cleanUsers us)) userOracle).1.map (fun kv => kv.2))
                presenceOracle).1)
            po v).1)) := by
    rw [statusHandler_valid us userOracle presenceOracle po hlen]
    simp [runPipeline_fst, List.map_map, Function.comp]
  refine ⟨⟨_, hmap, List.mem_map_of_mem _ hu⟩, ?_, rfl, rfl, rfl⟩
  rw [key]

theorem unresolved_username_error_record_witness :
    (∃ rs, (statusHandler (some ["ghost"]) (fun _ => some []) (fun _ => none)
        (fun _ => none)).1 = Except.ok rs
      ∧ (processUser
          (getUserIds (dedupFirst (cleanUsers ["ghost"])) (fun _ => some [])).1
          (buildReverseMap
            (getUserIds (dedupFirst (cleanUsers ["ghost"])) (fun _ => some [])).1)
          (buildPresenceMap
            (fetchPresences
              ((getUserIds (dedupFirst (cleanUsers ["ghost"])) (fun _ => some [])).1.map
                (fun kv => kv.2))
              (fun _ => none)).1)
          (fun _ => none) "ghost").1 ∈ rs)
    ∧ (processUser
        (getUserIds (dedupFirst (cleanUsers ["ghost"])) (fun _ => some [])).1
        (buildReverseMap
          (getUserIds (dedupFirst (cleanUsers ["ghost"])) (fun _ => some [])).1)
        (buildPresenceMap
          (fetchPresences
            ((getUserIds (dedupFirst (cleanUsers ["ghost"])) (fun _ => some [])).1.map
              (fun kv => kv.2))
            (fun _ => none)).1)
        (fun _ => none) "ghost").1
        = mkErrResult "ghost" "Pengguna tidak ditemukan di Roblox."
    ∧ (mkErrResult "ghost" "Pengguna tidak ditemukan di Roblox.").error
        = some "Pengguna tidak ditemukan di Roblox."
    ∧ (mkErrResult "ghost" "Pengguna tidak ditemukan di Roblox.").userId = none
    ∧ (mkErrResult "ghost" "Pengguna tidak ditemukan di Roblox.").status = none :=
  unresolved_username_error_record ["ghost"] (fun _ => some []) (fun _ => none)
    (fun _ => none) "ghost" (by decide) (by decide) (by decide)

/-- C8 counterexample: deduplication is case-sensitive.  "Alice" and
"alice" survive as two entries of the deduplicated list: the bulk lookup
chunk carries both entries and the output carries two records, not the
single record the claim predicts. -/
theorem case_sensitive_dedup_counterexample :
    (statusHandler (some ["Alice", "alice"]) (fun _ => some [⟨"Alice", 7⟩])
        (fun _ => none) (fun _ => none)).1
      = Except.ok [mkOkResult "alice" 7 "Offline" none none "Offline" "Offline",
          mkOkResult "alice" 7 "Offline" none none "Offline" "Offline"]
    ∧ (getUserIds (dedupFirst (cleanUsers ["Alice", "alice"]))
        (fun _ => some [⟨"Alice", 7⟩])).2
      = [UpstreamCall.userLookup ["Alice", "alice"]] := by
  constructor <;> rfl

/-- C8 amended: deduplication is case-sensitive exact-string matching
after trimming, so two usernames differing only in letter case remain two
entries: both appear in the single lookup chunk and each produces its own
output record; case is folded only for the map keys, so both usernames
hit the same key of the resolved mapping (hence the same user id). -/
theorem case_dedup_amended (a b : String)
    (userOracle : List String → Option (List RUser))
    (presenceOracle : List Nat → Option (List Presence))
    (po : Nat → Option (Option String))
    (hab : a ≠ b) (hta : jsTrim a = a) (htb : jsTrim b = b)
    (ha : a ≠ "") (hb : b ≠ "") (hlow : jsToLower a = jsToLower b) :
    dedupFirst (cleanUsers [a, b]) = [a, b]
    ∧ (statusHandler (some [a, b]) userOracle presenceOracle po).1
        = Except.ok
            [(processUser
               (getUserIds (dedupFirst (cleanUsers [a, b])) userOracle).1
               (buildReverseMap (getUserIds (dedupFirst (cleanUsers [a, b])) userOracle).1)
               (buildPresenceMap
                 (fetchPresences
                   ((getUserIds (dedupFirst (cleanUsers [a, b])) userOracle).1.map
                     (fun kv => kv.2))
                   presenceOracle).1)
               po a).1,
             (processUser
               (getUserIds (dedupFirst (cleanUsers [a, b])) userOracle).1
               (buildReverseMap (getUserIds (dedupFirst (cleanUsers [a, b])) userOracle).1)
               (buildPresenceMap
                 (fetchPresences
                   ((getUserIds (dedupFirst (cleanUsers [a, b])) userOracle).1.map
                     (fun kv => kv.2))
                   presenceOracle).1)
               po b).1]
    ∧ (getUserIds (dedupFirst (cleanUsers [a, b])) userOracle).2
        = [UpstreamCall.userLookup [a, b]]
    ∧ jsLookup (getUserIds (dedupFirst (cleanUsers [a, b])) userOracle).1 (jsToLower a)
        = jsLookup (getUserIds (dedupFirst (cleanUsers [a, b])) userOracle).1 (jsToLower b) := by
  have hclean : cleanUsers [a, b] = [a, b] := by
    simp [cleanUsers, hta, htb, ha, hb]
  have hba : b ≠ a := Ne.symm hab
  have hdd : dedupFirst (cleanUsers [a, b]) = [a, b] := by
    rw [hclean, dedupFirst_cons]
    have hf : ([b] : List String).filter (fun x => x != a) = [b] := by
      simp [hba]
    rw [hf]
    rfl
  refine ⟨hdd, ?_, ?_, by rw [hlow]⟩
  · rw [statusHandler_valid _ _ _ _ (by simp)]
    simp [runPipeline_fst, hdd, List.map_map, Function.comp]
  · rw [getUserIds_snd, hdd]
    have hch : chunks100 [a, b] = [[a, b]] := by
      rw [chunks100_cons _ (by simp), List.take_of_length_le (by simp),
        List.drop_eq_nil_of_le (by simp), chunks100_nil]
    rw [hch]
    rfl

theorem case_dedup_amended_witness :
    dedupFirst (cleanUsers ["Alice", "alice"]) = ["Alice", "alice"]
    ∧ (getUserIds (dedupFirst (cleanUsers ["Alice", "alice"]))
        (fun _ => some [⟨"Alice", 7⟩])).2
        = [UpstreamCall.userLookup ["Alice", "alice"]]
    ∧ jsLookup (getUserIds (dedupFirst (cleanUsers ["Alice", "alice"]))
        (fun _ => some [⟨"Alice", 7⟩])).1 (jsToLower "Alice")
        = jsLookup (getUserIds (dedupFirst (cleanUsers ["Alice", "alice"]))
            (fun _ => some [⟨"Alice", 7⟩])).1 (jsToLower "alice") := by
  have h := case_dedup_amended "Alice" "alice" (fun _ => some [⟨"Alice", 7⟩])
    (fun _ => none) (fun _ => none) (by decide) (by decide) (by decide)
    (by decide) (by decide) (by decide)
  exact ⟨h.1, h.2.2.1, h.2.2.2⟩

/-- C9 counterexample: input "ALICE" resolving upstream to the canonical
casing "Alice" (id 7) produces a record whose username field is "alice" —
the lowercased map key — which is neither the upstream-canonical casing
"Alice" claimed nor the original input "ALICE". -/
theorem canonical_casing_counterexample :
    (statusHandler (some ["ALICE"]) (fun _ => some [⟨"Alice", 7⟩]) (fun _ => none)
        (fun _ => none)).1
      = Except.ok [mkOkResult "alice" 7 "Offline" none none "Offline" "Offline"]
    ∧ ("alice" : String) ≠ "Alice" ∧ ("alice" : String) ≠ "ALICE" := by
  refine ⟨by rfl, by decide, by decide⟩

/-- C9 amended: for a resolved username the record's username field is
the reverse-mapping entry for the user id when available (else the
original input); that reverse-mapping entry is a key of the user map, and
every user-map key is the LOWERCASE-folded form of an upstream-returned
name — so the displayed name is the lowercased resolved username, not the
upstream-canonicalized casing. -/
theorem display_name_amended (us : List String)
    (userOracle : List String → Option (List RUser))
    (um : List (String × Nat)) (pm : List (Nat × Presence))
    (po : Nat → Option (Option String)) (u : String) (uid : Nat) (k : String)
    (humEq : um = (getUserIds us userOracle).1)
    (hum : jsLookup um (jsToLower u) = some uid) (huid : uid ≠ 0)
    (hrev : jsLookup (buildReverseMap um) uid = some k) :
    ((processUser um (buildReverseMap um) pm po u).1).username = jsOrStr (some k) u
    ∧ (k, uid) ∈ um
    ∧ ∃ c ∈ chunks100 us, ∃ rs, userOracle c = some rs
        ∧ ∃ r ∈ rs, k = jsToLower r.name ∧ uid = r.id := by
  have h1 : ((processUser um (buildReverseMap um) pm po u).1).username
      = jsOrStr (jsLookup (buildReverseMap um) uid) u :=
    processUser_username_resolved um (buildReverseMap um) pm po u uid hum huid
  have h2 : (uid, k) ∈ buildReverseMap um := jsLookup_eq_some_mem _ _ _ hrev
  have h3 : (k, uid) ∈ um := by
    rw [buildReverseMap] at h2
    rcases mem_foldl_jsSet (fun kv => kv.2) (fun kv => kv.1) um [] (uid, k) h2 with
      h | ⟨kv, hkv, hq⟩
    · simp at h
    · have hk : k = kv.1 := congrArg Prod.snd hq
      have hu2 : uid = kv.2 := congrArg Prod.fst hq
      rw [hk, hu2]
      simpa using hkv
  refine ⟨by rw [h1, hrev], h3, ?_⟩
  rcases mem_getUserIds_fst us userOracle (k, uid) (humEq ▸ h3) with
    ⟨c, hc, rs, hrs, r, hr, hpair⟩
  have hk : k = jsToLower r.name := congrArg Prod.fst hpair
  have hi : uid = r.id := congrArg Prod.snd hpair
  exact ⟨c, hc, rs, hrs, r, hr, hk, hi⟩

theorem display_name_amended_witness :
    ((processUser [("alice", 7)] (buildReverseMap [("alice", 7)]) []
        (fun _ => none) "ALICE").1).username = jsOrStr (some "alice") "ALICE"
    ∧ (("alice", 7) : String × Nat) ∈ [("alice", 7)]
    ∧ ∃ c ∈ chunks100 ["ALICE"], ∃ rs,
        (fun _ => some [(⟨"Alice", 7⟩ : RUser)]) c = some rs
        ∧ ∃ r ∈ rs, "alice" = jsToLower r.name ∧ 7 = r.id :=
  display_name_amended ["ALICE"] (fun _ => some [⟨"Alice", 7⟩]) [("alice", 7)] []
    (fun _ => none) "ALICE" 7 "alice" (by decide) (by decide) (by decide) (by decide)

/-- C3: username resolution partitions the (deduplicated) input into
consecutive chunks of at most 100 that rejoin to the input; a 250-name
input yields exactly the three calls of sizes 100, 100 and 50; each chunk
is attempted exactly once (the trace is one lookup call per chunk, failed
or not — no retry, no abort); a username of a failed chunk whose
lowercase form occurs in no other chunk is absent from the resulting
mapping, while any user returned by a successful chunk (with a unique
lowercased name across the successful responses) is still resolved to its
id. -/
theorem username_batching_fault_tolerance
    (usernames : List String) (userOracle : List String → Option (List RUser))
    (i : Nat) (u k : String) (idv : Nat)
    (hi : i < (chunks100 usernames).length)
    (hfail : userOracle ((chunks100 usernames).getD i []) = none)
    (hu : u ∈ (chunks100 usernames).getD i [])
    (hGood : ∀ c ∈ chunks100 usernames, ∀ rs, userOracle c = some rs →
        ∀ r ∈ rs, jsToLower r.name ∈ c.map jsToLower)
    (hOther : ∀ j, j < (chunks100 usernames).length → j ≠ i →
        jsToLower u ∉ ((chunks100 usernames).getD j []).map jsToLower)
    (hkv : (k, idv) ∈ respPairs (chunks100 usernames) userOracle)
    (hnodup : ((respPairs (chunks100 usernames) userOracle).map Prod.fst).Nodup) :
    (getUserIds usernames userOracle).2
      = (chunks100 usernames).map UpstreamCall.userLookup
    ∧ (chunks100 usernames).flatten = usernames
    ∧ (∀ c ∈ chunks100 usernames, c.length ≤ 100)
    ∧ (usernames.length = 250 → (chunks100 usernames).map List.length = [100, 100, 50])
    ∧ jsLookup (getUserIds usernames userOracle).1 (jsToLower u) = none
    ∧ jsLookup (getUserIds usernames userOracle).1 k = some idv := by
  refine ⟨getUserIds_snd _ _, chunks100_flatten _,
    fun c hc => chunks100_length_le _ c hc,
    fun h => chunks100_sizes_250 _ h, ?_, ?_⟩
  · rw [getUserIds_fst_eq]
    have hnk : ∀ p ∈ respPairs (chunks100 usernames) userOracle,
        Prod.fst p ≠ jsToLower u := by
      intro p hp hkey
      rcases mem_respPairs _ _ p hp with ⟨c, hc, rs, hrs, r, hr, hpair⟩
      rcases List.mem_iff_getElem.1 hc with ⟨j, hj, hcj⟩
      have hcd : (chunks100 usernames).getD j [] = c := by
        rw [List.getD_eq_getElem?_getD, List.getElem?_eq_getElem hj, hcj]
        rfl
      by_cases hji : j = i
      · subst hji
        rw [← hcd, hfail] at hrs
        cases hrs
      · have hmem : jsToLower r.name ∈ c.map jsToLower := hGood c hc rs hrs r hr
        have hp1 : p.1 = jsToLower r.name := by
          rw [hpair]
        have hru : jsToLower r.name = jsToLower u := by
          rw [← hp1]
          exact hkey
        apply hOther j hj hji
        rw [hcd, ← hru]
        exact hmem
    rw [jsLookup_foldl_of_no_key Prod.fst Prod.snd _ [] (jsToLower u) hnk]
    rfl
  · rw [getUserIds_fst_eq]
    exact jsLookup_foldl_of_nodup Prod.fst Prod.snd _ [] (k, idv) hnodup hkv

set_option maxRecDepth 10000 in
theorem username_batching_fault_tolerance_witness :
    (getUserIds batchNames batchOracle).2
      = (chunks100 batchNames).map UpstreamCall.userLookup
    ∧ (chunks100 batchNames).map List.length = [100, 100, 50]
    ∧ jsLookup (getUserIds batchNames batchOracle).1 (jsToLower "u100") = none
    ∧ jsLookup (getUserIds batchNames batchOracle).1 "u0" = some 7 := by
  have hGood : ∀ c ∈ chunks100 batchNames, ∀ rs, batchOracle c = some rs →
      ∀ r ∈ rs, jsToLower r.name ∈ c.map jsToLower := by
    intro c hc rs hrs r hr
    rw [batchOracle] at hrs
    by_cases hceq : c = batchNames.take 100
    · rw [if_pos hceq] at hrs
      injection hrs with hrs2
      subst hrs2
      have hr2 : r = (⟨"u0", 7⟩ : RUser) := by simpa using hr
      subst hr2
      subst hceq
      decide
    · rw [if_neg hceq] at hrs
      cases hrs
  have h := username_batching_fault_tolerance batchNames batchOracle 1 "u100" "u0" 7
    (by decide) (by decide) (by decide) hGood (by decide) (by decide) (by decide)
  exact ⟨h.1, h.2.2.2.1 (by decide), h.2.2.2.2.1, h.2.2.2.2.2⟩
